import Mathlib

/-!
Verification of the imgcd core (registry-driven blob pipeline) against its
specification.  The Go sources are shallowly embedded: byte streams become
lists of naturals, Go maps become association lists, wall-clock time becomes
an explicit `now : Nat` argument, and the external SHA-256 / gzip library
calls become explicit function parameters (`hash`, `gunzip`) of the models.
Every definition mirrors a concrete function of the repository; the file/jsons
side effects are represented by explicit state records.
-/

namespace Imgcd

/-- Byte streams are modelled as lists of naturals (each byte < 256 in
practice; no arithmetic is ever performed on them). -/
abbrev Bytes := List Nat

/-- Association-list lookup keyed by strings, modelling a Go map read. -/
def findEntry {β : Type} (k : String) : List (String × β) → Option β
  | [] => none
  | (k', v) :: rest => if k' = k then some v else findEntry k rest

/-- Association-list insert/overwrite, modelling a Go map write. -/
def setEntry {β : Type} (k : String) (v : β) : List (String × β) → List (String × β)
  | [] => [(k, v)]
  | (k', v') :: rest => if k' = k then (k, v) :: rest else (k', v') :: setEntry k v rest

/-- Association-list delete, modelling Go `delete(m, k)` / `os.Remove`. -/
def removeEntry {β : Type} (k : String) : List (String × β) → List (String × β)
  | [] => []
  | (k', v') :: rest => if k' = k then removeEntry k rest else (k', v') :: removeEntry k rest

theorem findEntry_removeEntry_self {β : Type} (k : String) (l : List (String × β)) :
    findEntry k (removeEntry k l) = none := by
  induction l with
  | nil => rfl
  | cons hd tl ih =>
    obtain ⟨k', v'⟩ := hd
    by_cases h : k' = k
    · simp [removeEntry, h, ih]
    · simp [removeEntry, findEntry, h, ih]

theorem findEntry_setEntry_self {β : Type} (k : String) (v : β) (l : List (String × β)) :
    findEntry k (setEntry k v l) = some v := by
  induction l with
  | nil => simp [setEntry, findEntry]
  | cons hd tl ih =>
    obtain ⟨k', v'⟩ := hd
    by_cases h : k' = k
    · simp [setEntry, h, findEntry]
    · simp [setEntry, findEntry, h, ih]

theorem findEntry_setEntry_other {β : Type} (k k' : String) (v : β) (l : List (String × β))
    (h : k' ≠ k) : findEntry k' (setEntry k v l) = findEntry k' l := by
  induction l with
  | nil => simp [setEntry, findEntry, Ne.symm h]
  | cons hd tl ih =>
    obtain ⟨k0, v0⟩ := hd
    by_cases h0 : k0 = k
    · subst h0
      simp [setEntry, findEntry, Ne.symm h]
    · by_cases h1 : k0 = k'
      · simp [setEntry, findEntry, h0, h1, h]
      · simp [setEntry, findEntry, h0, h1, ih]

/-- `strings.HasPrefix`, modelled on the character lists underlying the
strings so that it evaluates inside the kernel. -/
def strHasPre (s p : String) : Bool :=
  p.data.isPrefixOf s.data

/-- `normalizeDigest` from `internal/cache` (blob cache): ensure the
`sha256:` prefix is present. -/
def normalizeDigest (digest : String) : String :=
  if strHasPre digest "sha256:" then digest else "sha256:" ++ digest

/-- `strings.TrimPrefix(s, "sha256:")` as used throughout the sources. -/
def trimSha256 (s : String) : String :=
  if strHasPre s "sha256:" then String.mk (s.data.drop 7) else s

/-- Go's `s[:n]` on a string (all uses in the sources slice hex digests,
so bytes and characters coincide). -/
def strTake (s : String) (n : Nat) : String :=
  String.mk (s.data.take n)

/-! ## Blob cache (`internal/cache`, blob-keyed store) -/

/-- `BlobMetadata` of the blob cache index. -/
structure BlobMetadata where
  digest : String
  diffID : String
  size : Int
  imageRefs : List String
  lastAccess : Nat
  createdAt : Nat
deriving DecidableEq

/-- State of a `BlobCache`: the in-memory/json index (`blobs`), the blob
files on disk keyed by normalized digest (`files`), the index `UpdatedAt`
stamp and the `enabled` flag. -/
structure BlobCacheState where
  enabled : Bool
  blobs : List (String × BlobMetadata)
  files : List (String × Bytes)
  updatedAt : Nat
deriving DecidableEq

/-- `BlobCache.Exists`. -/
def cacheExists (st : BlobCacheState) (digest : String) : Bool :=
  if st.enabled = false then false
  else (findEntry (normalizeDigest digest) st.blobs).isSome

inductive GetResult
  | ok (content : Bytes)
  | err (msg : String)
deriving DecidableEq

/-- `BlobCache.Get`: fail when disabled or absent; evict a stale index entry
whose file is missing; otherwise refresh `lastAccess` and return the bytes. -/
def cacheGet (now : Nat) (st : BlobCacheState) (digest : String) :
    BlobCacheState × GetResult :=
  if st.enabled = false then (st, .err "cache is disabled")
  else
    let d := normalizeDigest digest
    match findEntry d st.blobs with
    | none => (st, .err "blob not in cache")
    | some meta =>
      match findEntry d st.files with
      | none => ({ st with blobs := removeEntry d st.blobs }, .err "cached blob file not found")
      | some content =>
        ({ st with blobs := setEntry d { meta with lastAccess := now } st.blobs,
                   updatedAt := now }, .ok content)

inductive PutResult
  | ok
  | err (msg : String)
deriving DecidableEq

/-- Outcome of `BlobCache.Put`: the new cache state, the returned error value,
and how many bytes were consumed from the supplied reader. -/
structure PutOutcome where
  state : BlobCacheState
  result : PutResult
  consumed : Nat
deriving DecidableEq

/-- `BlobCache.Put` (hash is the SHA-256 hex function, a parameter of the
model).  Mirrors the source: a no-op when disabled; when the digest is
already indexed only the owner set and `lastAccess` may change and the
reader is never read; otherwise the bytes are streamed to the blob file
while hashed, the file is removed again on digest mismatch, and the index
entry is inserted only on success. -/
def cachePut (hash : Bytes → String) (now : Nat) (st : BlobCacheState)
    (digest diffID : String) (reader : Bytes) (imageRef : String) : PutOutcome :=
  if st.enabled = false then ⟨st, .ok, 0⟩
  else
    let d := normalizeDigest digest
    let dfid := normalizeDigest diffID
    match findEntry d st.blobs with
    | some meta =>
      if imageRef ∈ meta.imageRefs then ⟨st, .ok, 0⟩
      else
        let meta' := { meta with imageRefs := meta.imageRefs ++ [imageRef], lastAccess := now }
        ⟨{ st with blobs := setEntry d meta' st.blobs, updatedAt := now }, .ok, 0⟩
    | none =>
      let written := reader.length
      let calculated := "sha256:" ++ hash reader
      if calculated ≠ d then
        ⟨{ st with files := removeEntry d st.files },
         .err ("digest mismatch: expected " ++ d ++ ", got " ++ calculated), written⟩
      else
        ⟨{ st with
             files := setEntry d reader st.files,
             blobs := setEntry d ⟨d, dfid, (written : Int), [imageRef], now, now⟩ st.blobs,
             updatedAt := now }, .ok, written⟩

/-- C3: a `Put` of bytes that do not hash to the declared digest, on an
enabled cache that does not already hold that digest, returns an integrity
error, inserts no index entry, leaves no file at the blob path, and a
subsequent `Exists` returns `false`. -/
theorem cachePut_integrity_failure
    (hash : Bytes → String) (now : Nat) (st : BlobCacheState)
    (digest diffID : String) (reader : Bytes) (imageRef : String)
    (hen : st.enabled = true)
    (habsent : findEntry (normalizeDigest digest) st.blobs = none)
    (hmm : "sha256:" ++ hash reader ≠ normalizeDigest digest) :
    ∃ msg,
      (cachePut hash now st digest diffID reader imageRef).result = .err msg ∧
      findEntry (normalizeDigest digest)
        (cachePut hash now st digest diffID reader imageRef).state.blobs = none ∧
      findEntry (normalizeDigest digest)
        (cachePut hash now st digest diffID reader imageRef).state.files = none ∧
      cacheExists (cachePut hash now st digest diffID reader imageRef).state digest = false := by
  refine ⟨"digest mismatch: expected " ++ normalizeDigest digest ++ ", got " ++
    ("sha256:" ++ hash reader), ?_⟩
  simp only [cachePut, hen, Bool.true_eq_false, if_false, habsent, if_pos hmm]
  simp [cacheExists, hen, habsent, findEntry_removeEntry_self]

/-- Concrete instantiation of `cachePut_integrity_failure`. -/
theorem cachePut_integrity_failure_check :
    ((⟨true, [], [], 0⟩ : BlobCacheState).enabled = true ∧
     findEntry (normalizeDigest "sha256:aa") (⟨true, [], [], 0⟩ : BlobCacheState).blobs = none ∧
     "sha256:" ++ (fun _ : Bytes => "00") [1] ≠ normalizeDigest "sha256:aa") ∧
    (∃ msg,
      (cachePut (fun _ => "00") 7 ⟨true, [], [], 0⟩ "sha256:aa" "sha256:bb" [1] "r").result
        = .err msg ∧
      findEntry (normalizeDigest "sha256:aa")
        (cachePut (fun _ => "00") 7 ⟨true, [], [], 0⟩ "sha256:aa" "sha256:bb" [1] "r").state.blobs
        = none ∧
      findEntry (normalizeDigest "sha256:aa")
        (cachePut (fun _ => "00") 7 ⟨true, [], [], 0⟩ "sha256:aa" "sha256:bb" [1] "r").state.files
        = none ∧
      cacheExists
        (cachePut (fun _ => "00") 7 ⟨true, [], [], 0⟩ "sha256:aa" "sha256:bb" [1] "r").state
        "sha256:aa" = false) :=
  ⟨⟨rfl, rfl, by decide⟩,
   cachePut_integrity_failure (fun _ => "00") 7 ⟨true, [], [], 0⟩
     "sha256:aa" "sha256:bb" [1] "r" rfl rfl (by decide)⟩

/-- A concrete cache state holding one blob, used to settle C8: the digest
`sha256:aa` is indexed with owner `r` and its file is on disk. -/
def c8State : BlobCacheState :=
  ⟨true, [("sha256:aa", ⟨"sha256:aa", "sha256:bb", 1, ["r"], 3, 3⟩)], [("sha256:aa", [1])], 3⟩

/-- C8, counterexample: calling `Put` for an already-cached digest does NOT
drain the supplied reader — zero bytes of the one-byte stream are consumed
(and, the owner ref being already recorded, the state is returned untouched,
so `lastAccess` is not updated either). -/
theorem cachePut_existing_not_drained :
    (cachePut (fun _ => "zz") 9 c8State "sha256:aa" "sha256:bb" [7] "r").consumed = 0 ∧
    ¬((cachePut (fun _ => "zz") 9 c8State "sha256:aa" "sha256:bb" [7] "r").consumed
        = ([7] : Bytes).length) ∧
    (cachePut (fun _ => "zz") 9 c8State "sha256:aa" "sha256:bb" [7] "r").result = .ok ∧
    (cachePut (fun _ => "zz") 9 c8State "sha256:aa" "sha256:bb" [7] "r").state = c8State := by
  decide

/-- C8, amended: for a `Put` whose digest is already indexed, `Put` returns
success, never reads the supplied stream (zero bytes consumed, the stream is
simply discarded), leaves every blob file and every other index entry
unchanged, and touches only the hit entry: when the owner ref is new it is
appended and `lastAccess` refreshed, when it is already recorded the whole
state is unchanged. -/
theorem cachePut_existing_frame
    (hash : Bytes → String) (now : Nat) (st : BlobCacheState)
    (digest diffID : String) (reader : Bytes) (imageRef : String)
    (meta : BlobMetadata)
    (hen : st.enabled = true)
    (hpresent : findEntry (normalizeDigest digest) st.blobs = some meta) :
    (cachePut hash now st digest diffID reader imageRef).result = .ok ∧
    (cachePut hash now st digest diffID reader imageRef).consumed = 0 ∧
    (cachePut hash now st digest diffID reader imageRef).state.files = st.files ∧
    (∀ d, d ≠ normalizeDigest digest →
      findEntry d (cachePut hash now st digest diffID reader imageRef).state.blobs
        = findEntry d st.blobs) ∧
    (imageRef ∈ meta.imageRefs →
      (cachePut hash now st digest diffID reader imageRef).state = st) ∧
    (imageRef ∉ meta.imageRefs →
      findEntry (normalizeDigest digest)
          (cachePut hash now st digest diffID reader imageRef).state.blobs
        = some { meta with imageRefs := meta.imageRefs ++ [imageRef], lastAccess := now }) := by
  by_cases hm : imageRef ∈ meta.imageRefs
  · simp [cachePut, hen, hpresent, hm]
  · simp only [cachePut, hen, Bool.true_eq_false, if_false, hpresent, if_neg hm]
    exact ⟨trivial, trivial, trivial,
      fun d hd => findEntry_setEntry_other _ _ _ _ hd,
      fun h => absurd h hm,
      fun _ => findEntry_setEntry_self _ _ _⟩

/-- Concrete instantiation of `cachePut_existing_frame`: the owner ref `s`
is new, so the entry gains it and `lastAccess` moves to `9`. -/
theorem cachePut_existing_frame_check :
    (c8State.enabled = true ∧
     findEntry (normalizeDigest "sha256:aa") c8State.blobs
       = some ⟨"sha256:aa", "sha256:bb", 1, ["r"], 3, 3⟩) ∧
    ((cachePut (fun _ => "zz") 9 c8State "sha256:aa" "sha256:bb" [7] "s").result = .ok ∧
     (cachePut (fun _ => "zz") 9 c8State "sha256:aa" "sha256:bb" [7] "s").consumed = 0 ∧
     (cachePut (fun _ => "zz") 9 c8State "sha256:aa" "sha256:bb" [7] "s").state.files
       = c8State.files ∧
     (∀ d, d ≠ normalizeDigest "sha256:aa" →
       findEntry d (cachePut (fun _ => "zz") 9 c8State "sha256:aa" "sha256:bb" [7] "s").state.blobs
         = findEntry d c8State.blobs) ∧
     ("s" ∈ (⟨"sha256:aa", "sha256:bb", 1, ["r"], 3, 3⟩ : BlobMetadata).imageRefs →
       (cachePut (fun _ => "zz") 9 c8State "sha256:aa" "sha256:bb" [7] "s").state = c8State) ∧
     ("s" ∉ (⟨"sha256:aa", "sha256:bb", 1, ["r"], 3, 3⟩ : BlobMetadata).imageRefs →
       findEntry (normalizeDigest "sha256:aa")
           (cachePut (fun _ => "zz") 9 c8State "sha256:aa" "sha256:bb" [7] "s").state.blobs
         = some ⟨"sha256:aa", "sha256:bb", 1, ["r", "s"], 9, 3⟩)) :=
  ⟨⟨rfl, by decide⟩,
   cachePut_existing_frame (fun _ => "zz") 9 c8State "sha256:aa" "sha256:bb" [7] "s"
     ⟨"sha256:aa", "sha256:bb", 1, ["r"], 3, 3⟩ rfl (by decide)⟩

/-! ## Reference parsing (`internal/image/exporter.go`) -/

/-- `strings.Split(s, ":")` for the single-character separator used by the
sources, on the character list underlying the string. -/
def splitOnChar (c : Char) : List Char → List (List Char)
  | [] => [[]]
  | x :: xs =>
    if x = c then [] :: splitOnChar c xs
    else
      match splitOnChar c xs with
      | [] => [[x]]
      | p :: ps => (x :: p) :: ps

/-- `strings.Join(parts, ":")` for a single-character separator. -/
def joinOnChar (c : Char) : List (List Char) → List Char
  | [] => []
  | [p] => p
  | p :: ps => p ++ c :: joinOnChar c ps

theorem splitOnChar_ne_nil (c : Char) (s : List Char) : splitOnChar c s ≠ [] := by
  cases s with
  | nil => simp [splitOnChar]
  | cons x xs =>
    by_cases h : x = c
    · simp [splitOnChar, h]
    · simp only [splitOnChar, if_neg h]
      cases splitOnChar c xs <;> simp

theorem splitOnChar_not_mem (c : Char) (s : List Char) (h : c ∉ s) :
    splitOnChar c s = [s] := by
  induction s with
  | nil => rfl
  | cons x xs ih =>
    have hx : ¬x = c := fun e => h (e ▸ List.mem_cons_self x xs)
    have hxs : c ∉ xs := fun m => h (List.mem_cons_of_mem x m)
    simp [splitOnChar, hx, ih hxs]

theorem splitOnChar_append (c : Char) (x y : List Char) :
    splitOnChar c (x ++ c :: y) = splitOnChar c x ++ splitOnChar c y := by
  induction x with
  | nil => simp [splitOnChar]
  | cons a xs ih =>
    by_cases h : a = c
    · simp [splitOnChar, h, ih]
    · simp only [List.cons_append, splitOnChar, if_neg h]
      obtain ⟨p, ps, hp⟩ : ∃ p ps, splitOnChar c xs = p :: ps := by
        cases hs : splitOnChar c xs with
        | nil => exact absurd hs (splitOnChar_ne_nil c xs)
        | cons p ps => exact ⟨p, ps, rfl⟩
      simp [ih, hp]

theorem joinOnChar_splitOnChar (c : Char) (s : List Char) :
    joinOnChar c (splitOnChar c s) = s := by
  induction s with
  | nil => rfl
  | cons x xs ih =>
    by_cases h : x = c
    · simp only [splitOnChar, if_pos h]
      obtain ⟨p, ps, hp⟩ : ∃ p ps, splitOnChar c xs = p :: ps := by
        cases hs : splitOnChar c xs with
        | nil => exact absurd hs (splitOnChar_ne_nil c xs)
        | cons p ps => exact ⟨p, ps, rfl⟩
      rw [hp]
      rw [hp] at ih
      simp [joinOnChar, h, ih]
    · simp only [splitOnChar, if_neg h]
      obtain ⟨p, ps, hp⟩ : ∃ p ps, splitOnChar c xs = p :: ps := by
        cases hs : splitOnChar c xs with
        | nil => exact absurd hs (splitOnChar_ne_nil c xs)
        | cons p ps => exact ⟨p, ps, rfl⟩
      rw [hp]
      rw [hp] at ih
      cases ps with
      | nil => simpa [joinOnChar] using congrArg (x :: ·) ih
      | cons q qs => simpa [joinOnChar] using congrArg (x :: ·) ih

/-- `parseReference` from `exporter.go`: split the reference on ":"; with at
least two parts the repo is all but the last part re-joined with ":" and the
tag is the last part; otherwise the tag defaults to `"latest"`. -/
def parseReference (ref : String) : String × String :=
  let parts := splitOnChar ':' ref.data
  if 2 ≤ parts.length then
    (String.mk (joinOnChar ':' parts.dropLast), String.mk (parts.getLastD []))
  else (ref, "latest")

/-- C7, counterexample: the split is not port-aware.  Parsing
`localhost:5000/app` yields repo `localhost` and tag `5000/app`, not
(`localhost:5000/app`, `latest`) as the claim states. -/
theorem parseReference_port_counterexample :
    parseReference "localhost:5000/app" = ("localhost", "5000/app") ∧
    parseReference "localhost:5000/app" ≠ ("localhost:5000/app", "latest") := by
  decide

/-- C7, amended: `parseReference` splits on the rightmost `:`
unconditionally — also when that colon belongs to a registry host port — and
a reference without `:` gets the default tag `"latest"`. -/
theorem parseReference_amended :
    (∀ ref : String, ':' ∉ ref.data → parseReference ref = (ref, "latest")) ∧
    (∀ repo tag : String, ':' ∉ tag.data →
      parseReference (repo ++ ":" ++ tag) = (repo, tag)) := by
  constructor
  · intro ref h
    simp [parseReference, splitOnChar_not_mem ':' ref.data h]
  · intro repo tag h
    have hdata : (repo ++ ":" ++ tag).data = repo.data ++ ':' :: tag.data := by
      cases repo with
      | mk a =>
        cases tag with
        | mk b =>
          show (a ++ [':']) ++ b = a ++ ':' :: b
          simp
    obtain ⟨p, ps, hp⟩ : ∃ p ps, splitOnChar ':' repo.data = p :: ps := by
      cases hs : splitOnChar ':' repo.data with
      | nil => exact absurd hs (splitOnChar_ne_nil ':' repo.data)
      | cons p ps => exact ⟨p, ps, rfl⟩
    have hsplit : splitOnChar ':' (repo ++ ":" ++ tag).data
        = splitOnChar ':' repo.data ++ [tag.data] := by
      rw [hdata, splitOnChar_append, splitOnChar_not_mem ':' tag.data h]
    have hlen : 2 ≤ (splitOnChar ':' repo.data ++ [tag.data]).length := by
      rw [hp]
      simp
    simp only [parseReference, hsplit, if_pos hlen, Prod.mk.injEq]
    refine ⟨?_, ?_⟩
    · rw [List.dropLast_concat, joinOnChar_splitOnChar]
    · rw [List.getLastD_concat]

/-- Concrete instantiation of `parseReference_amended` at `alpine` (no tag)
and `alpine:3.20`. -/
theorem parseReference_amended_check :
    (':' ∉ "alpine".data ∧ parseReference "alpine" = ("alpine", "latest")) ∧
    (':' ∉ "3.20".data ∧ parseReference ("alpine" ++ ":" ++ "3.20") = ("alpine", "3.20")) :=
  ⟨⟨by decide, parseReference_amended.1 "alpine" (by decide)⟩,
   ⟨by decide, parseReference_amended.2 "alpine" "3.20" (by decide)⟩⟩

/-! ## Differ (`internal/diff`) -/

/-- `remote.LayerMetadata`: one layer as seen by the metadata fetcher. -/
structure DiffLayerMeta where
  diffID : String
  digest : String
  size : Int
  command : String
deriving DecidableEq

inductive LayerStatus
  | new
  | shared
deriving DecidableEq

/-- `diff.LayerDiff`. -/
structure LayerDiff where
  diffID : String
  digest : String
  size : Int
  command : String
  status : LayerStatus
deriving DecidableEq

/-- The classification part of `diff.DiffResult`. -/
structure CompareOut where
  layerDiffs : List LayerDiff
  newLayers : List LayerDiff
  sharedLayers : List LayerDiff
  newLayersSize : Int
  sharedLayersSize : Int
deriving DecidableEq

/-- The layer-classification loop of `Differ.Compare`: walk the new image's
layers in order; a layer is SHARED iff its diffID is in the base map, else
NEW; accumulate the ordered diff list, the two sublists and both sizes. -/
def classifyLayers (baseLayerMap : List String) : List DiffLayerMeta → CompareOut
  | [] => ⟨[], [], [], 0, 0⟩
  | l :: rest =>
    let out := classifyLayers baseLayerMap rest
    if baseLayerMap.contains l.diffID then
      let d : LayerDiff := ⟨l.diffID, l.digest, l.size, l.command, .shared⟩
      ⟨d :: out.layerDiffs, out.newLayers, d :: out.sharedLayers,
       out.newLayersSize, l.size + out.sharedLayersSize⟩
    else
      let d : LayerDiff := ⟨l.diffID, l.digest, l.size, l.command, .new⟩
      ⟨d :: out.layerDiffs, d :: out.newLayers, out.sharedLayers,
       l.size + out.newLayersSize, out.sharedLayersSize⟩

/-- `Differ.Compare` classification: build the base diffID map, then
classify the new image's layers. -/
def compareLayers (newL baseL : List DiffLayerMeta) : CompareOut :=
  let baseLayerMap := baseL.map (fun b => b.diffID)
  classifyLayers baseLayerMap newL

/-- C6: `Compare` classifies each new-image layer, in order and exactly
once, as SHARED iff its diffID occurs among the base image's diffIDs, and
the aggregate sizes are the sums of the sizes so classified. -/
theorem compareLayers_classification (newL baseL : List DiffLayerMeta) :
    (compareLayers newL baseL).layerDiffs
      = newL.map (fun l =>
          ⟨l.diffID, l.digest, l.size, l.command,
            if (baseL.map (fun b => b.diffID)).contains l.diffID then .shared else .new⟩) ∧
    (compareLayers newL baseL).sharedLayersSize
      = ((newL.filter (fun l => (baseL.map (fun b => b.diffID)).contains l.diffID)).map
          (fun l => l.size)).sum ∧
    (compareLayers newL baseL).newLayersSize
      = ((newL.filter (fun l => !(baseL.map (fun b => b.diffID)).contains l.diffID)).map
          (fun l => l.size)).sum := by
  induction newL with
  | nil => exact ⟨rfl, rfl, rfl⟩
  | cons l rest ih =>
    obtain ⟨ih1, ih2, ih3⟩ := ih
    by_cases hc : ∃ a ∈ baseL, a.diffID = l.diffID
    · refine ⟨?_, ?_, ?_⟩ <;>
        simp [compareLayers, classifyLayers, hc] at ih1 ih2 ih3 ⊢ <;>
        simp [ih1, ih2, ih3, hc]
    · refine ⟨?_, ?_, ?_⟩ <;>
        simp [compareLayers, classifyLayers, hc] at ih1 ih2 ih3 ⊢ <;>
        simp [ih1, ih2, ih3, hc]

/-- `remote.ImageMetadata` as consumed by the differ's result assignment:
the `Reference` field is the string that was passed to
`FetchImageMetadata`. -/
structure FetchedMeta where
  reference : String
  layers : List DiffLayerMeta
deriving DecidableEq

/-- The result-collection loop of `Differ.Compare`: each arriving fetch
result is assigned to the new image when its `Reference` equals
`newImageRef`, otherwise to the base image. -/
def assignFetchResults (newImageRef : String) (results : List FetchedMeta) :
    Option FetchedMeta × Option FetchedMeta :=
  results.foldl
    (fun acc r => if r.reference = newImageRef then (some r, acc.2) else (acc.1, some r))
    (none, none)

/-- `Differ.Compare` after both parallel fetches succeed: collect and assign
the two results (in either arrival order), then dereference the base image
to build its diffID map and the new image to walk its layers.  A `none`
result models the nil-pointer dereference (panic). -/
def compareRun (fetch : String → FetchedMeta) (newImageRef baseImageRef : String)
    (swapArrival : Bool) : Option CompareOut :=
  let r1 := fetch newImageRef
  let r2 := fetch baseImageRef
  let results := if swapArrival then [r2, r1] else [r1, r2]
  match assignFetchResults newImageRef results with
  | (some n, some b) => some (compareLayers n.layers b.layers)
  | _ => none

/-- C9: when `Compare` is called with the base reference equal to the new
reference and both fetches succeed, both results are assigned to the new
image (the base slot stays nil), and `Compare` crashes on the nil base image
instead of returning an all-SHARED classification. -/
theorem compareRun_same_ref_crashes
    (fetch : String → FetchedMeta) (ref : String) (swapArrival : Bool)
    (hfetch : ∀ r, (fetch r).reference = r) :
    (assignFetchResults ref [fetch ref, fetch ref]).2 = none ∧
    compareRun fetch ref ref swapArrival = none := by
  have h := hfetch ref
  constructor
  · simp [assignFetchResults, h]
  · cases swapArrival <;> simp [compareRun, assignFetchResults, h]

/-- Concrete instantiation of `compareRun_same_ref_crashes`. -/
theorem compareRun_same_ref_crashes_check :
    (∀ r, ((fun s => (⟨s, []⟩ : FetchedMeta)) r).reference = r) ∧
    ((assignFetchResults "alpine:3.20"
        [(fun s => (⟨s, []⟩ : FetchedMeta)) "alpine:3.20",
         (fun s => (⟨s, []⟩ : FetchedMeta)) "alpine:3.20"]).2 = none ∧
     compareRun (fun s => (⟨s, []⟩ : FetchedMeta)) "alpine:3.20" "alpine:3.20" false = none) :=
  ⟨fun _ => rfl,
   compareRun_same_ref_crashes (fun s => (⟨s, []⟩ : FetchedMeta)) "alpine:3.20" false
     (fun _ => rfl)⟩

/-! ## Remote export (`internal/image/remote_export.go`, `internal/remote`) -/

/-- A layer of the fetched image: the descriptor data available from the
manifest/config plus the compressed blob obtainable on demand. -/
structure SrcLayer where
  digest : String
  diffID : String
  size : Int
  compressed : Bytes
deriving DecidableEq

/-- `bundle.LayerInfo` (the optional uncompressed size is never set by the
remote exporter and is omitted). -/
structure LayerInfo where
  digest : String
  diffID : String
  size : Int
  mediaType : String
deriving DecidableEq

/-- The incremental filter loop of `ExportFromRegistry`: walk the new
image's layers with their index, skip layers whose diffID is in the base
image's diffID set, and for each kept layer append it to the export list and
its `LayerInfo` (media type from the manifest when the index is in range) to
the metadata list. -/
def filterLayers (baseDiffIDs mediaTypes : List String) :
    Nat → List SrcLayer → List SrcLayer × List LayerInfo
  | _, [] => ([], [])
  | i, l :: rest =>
    let tail := filterLayers baseDiffIDs mediaTypes (i + 1) rest
    if baseDiffIDs.contains l.diffID then tail
    else (l :: tail.1, ⟨l.digest, l.diffID, l.size, mediaTypes.getD i ""⟩ :: tail.2)

/-- The full-export branch of `ExportFromRegistry`: `LayerInfo` for every
layer, media type from the manifest when the index is in range. -/
def allLayerInfos (mediaTypes : List String) : Nat → List SrcLayer → List LayerInfo
  | _, [] => []
  | i, l :: rest =>
    ⟨l.digest, l.diffID, l.size, mediaTypes.getD i ""⟩ :: allLayerInfos mediaTypes (i + 1) rest

/-- Layer selection of `ExportFromRegistry`, including the all-shared
fallback: when the selected export list is empty, `layersToExport` is reset
to all layers while the already-built `layerInfos` list is left as is. -/
def selectLayersToExport (incremental : Bool) (baseDiffIDs mediaTypes : List String)
    (newLayers : List SrcLayer) : List SrcLayer × List LayerInfo :=
  let sel :=
    if incremental then filterLayers baseDiffIDs mediaTypes 0 newLayers
    else (newLayers, allLayerInfos mediaTypes 0 newLayers)
  if sel.1.isEmpty then (newLayers, sel.2) else sel

/-- `calculateTotalSize`. -/
def calculateTotalSize (layers : List LayerInfo) : Int :=
  (layers.map (fun l => l.size)).sum

/-- `bundle.Metadata` as relevant to the claims: the image config is
represented by its rootfs diffID chain. -/
structure ExportMetadata where
  version : String
  imageRef : String
  baseRef : String
  sharedLayerCount : Nat
  platform : String
  configDiffIDs : List String
  layers : List LayerInfo
  totalSize : Int
deriving DecidableEq

/-- The `bundle.Metadata` literal assembled by `ExportFromRegistry`.  The Go
struct literal does not mention `SharedLayerCount`, which therefore keeps
the integer zero value on every path (full and incremental alike). -/
def exportMetadata (newRef fullSinceRef platform : String)
    (configDiffIDs : List String) (layerInfos : List LayerInfo) : ExportMetadata :=
  { version := "2"
    imageRef := newRef
    baseRef := fullSinceRef
    sharedLayerCount := 0
    platform := platform
    configDiffIDs := configDiffIDs
    layers := layerInfos
    totalSize := calculateTotalSize layerInfos }

/-- `remote.DownloadResult`. -/
structure DownloadResult where
  digest : String
  diffID : String
  size : Int
  fromCache : Bool
  error : Option String
deriving DecidableEq

/-- The cache-miss path of `downloadSingleBlob`: stream the compressed blob
into `Put` (which verifies the digest) and record any failure in the
result. -/
def downloadFresh (hash : Bytes → String) (now : Nat) (st : BlobCacheState)
    (l : SrcLayer) (imageRef : String) : BlobCacheState × DownloadResult :=
  let out := cachePut hash now st l.digest l.diffID l.compressed imageRef
  match out.result with
  | .ok => (out.state, ⟨l.digest, l.diffID, l.size, false, none⟩)
  | .err msg => (out.state, ⟨"", "", 0, false, some ("failed to cache blob: " ++ msg)⟩)

/-- `BlobDownloader.downloadSingleBlob`: serve from the cache when the
digest is indexed (a `Get` that merely refreshes the access time); on a
failed cache read or a cache miss, download through `Put`. -/
def downloadSingleBlob (hash : Bytes → String) (now : Nat) (st : BlobCacheState)
    (l : SrcLayer) (imageRef : String) : BlobCacheState × DownloadResult :=
  if cacheExists st l.digest then
    match cacheGet now st l.digest with
    | (st', .ok _) => (st', ⟨l.digest, l.diffID, 0, true, none⟩)
    | (st', .err _) => downloadFresh hash now st' l imageRef
  else downloadFresh hash now st l imageRef

/-- `DownloadBlobsWithProgress`, data behavior: one result per layer, stored
at the layer's index (so results are in layer order); the bounded-concurrency
loop is sequenced in that order, threading the cache state. -/
def downloadBlobs (hash : Bytes → String) (now : Nat) (st : BlobCacheState)
    (layers : List SrcLayer) (imageRef : String) : BlobCacheState × List DownloadResult :=
  match layers with
  | [] => (st, [])
  | l :: rest =>
    let first := downloadSingleBlob hash now st l imageRef
    let tail := downloadBlobs hash now first.1 rest imageRef
    (tail.1, first.2 :: tail.2)

/-- The success condition of reading a blob back from the cache
(`GetCachedBlobReader`/`GetMetadata`) as used by the packer; the
`lastAccess` refresh is irrelevant to the packed bytes and elided. -/
def cacheRead (st : BlobCacheState) (digest : String) : Option Bytes :=
  if st.enabled = false then none
  else
    match findEntry (normalizeDigest digest) st.blobs with
    | none => none
    | some _ => findEntry (normalizeDigest digest) st.files

/-- Result of `createBundleTarGz`: whether `os.Create` has produced a file
at the output path (the function never removes or renames it), the tar
entries written (name, content) in order, and the returned error. -/
structure PackOutcome where
  fileAtOutputPath : Bool
  entries : List (String × Bytes)
  error : Option String
deriving DecidableEq

/-- The blob loop of `createBundleTarGz`: one `blobs/sha256/<hex>` entry per
download result, in order, contents read back from the blob cache; an
unreadable blob stops the loop with an error, the entries already written
staying in the file. -/
def packLoop (st : BlobCacheState) : List DownloadResult → List (String × Bytes) × Option String
  | [] => ([], none)
  | r :: rest =>
    match cacheRead st r.digest with
    | none => ([], some ("failed to read blob " ++ r.digest ++ " from cache"))
    | some content =>
      let tail := packLoop st rest
      (("blobs/sha256/" ++ trimSha256 r.digest, content) :: tail.1, tail.2)

/-- `createBundleTarGz`: create the output file in place, write
`metadata.json` first, then the blobs in download-result order. -/
def createBundleTarGz (st : BlobCacheState) (metaBytes : Bytes)
    (results : List DownloadResult) : PackOutcome :=
  let body := packLoop st results
  ⟨true, ("metadata.json", metaBytes) :: body.1, body.2⟩

/-- Outputs of the tail of `ExportFromRegistry`: the persisted bundle
metadata, the ordered download results, and the pack outcome (`none` when a
download failed and packing was never reached). -/
structure ExportOutcome where
  metadata : ExportMetadata
  results : List DownloadResult
  pack : Option PackOutcome
deriving DecidableEq

/-- The data flow of `ExportFromRegistry` once the new image (its layers,
manifest media types and config diffID chain) and, for an incremental save,
the base image's diffID set have been fetched: select the layers to export,
download them through the blob cache, assemble the v2 bundle metadata, and
pack the bundle. -/
def exportFromRegistry (hash : Bytes → String) (now : Nat) (st : BlobCacheState)
    (newRef fullSinceRef platform : String) (incremental : Bool)
    (baseDiffIDs : List String) (newLayers : List SrcLayer)
    (mediaTypes configDiffIDs : List String) (metaBytes : Bytes) : ExportOutcome :=
  let sel := selectLayersToExport incremental baseDiffIDs mediaTypes newLayers
  let dl := downloadBlobs hash now st sel.1 newRef
  let metadata := exportMetadata newRef fullSinceRef platform configDiffIDs sel.2
  ⟨metadata, dl.2,
    if dl.2.any (fun r => r.error.isSome) then none
    else some (createBundleTarGz dl.1 metaBytes dl.2)⟩

/-- Concrete layer fixtures used to evaluate the export pipeline. -/
def layerA : SrcLayer := ⟨"sha256:aa", "sha256:a1", 3, [1]⟩

def layerB : SrcLayer := ⟨"sha256:bb", "sha256:b1", 4, [2]⟩

/-- A concrete stand-in for SHA-256 on the fixture blobs. -/
def demoHash : Bytes → String :=
  fun b => if b = [1] then "aa" else if b = [2] then "bb" else "zz"

def emptyCache : BlobCacheState := ⟨true, [], [], 0⟩

/-- C1, evaluated at the failing input: an incremental save of a two-layer
image whose first layer is shared with the base.  The persisted metadata has
`sharedLayerCount = 0` (the exporter never sets the field), one bundled
layer and a two-entry config diffID chain, so
`sharedLayerCount + len(layers) = len(config.rootfs.diff_ids)` fails — and
the bundle is nevertheless produced without error. -/
theorem exportFromRegistry_sharedLayerCount_bug :
    (exportFromRegistry demoHash 0 emptyCache "app:2.0" "app:1.0" "linux/amd64" true
        ["sha256:a1"] [layerA, layerB] ["tgz", "tgz"] ["sha256:a1", "sha256:b1"]
        [9]).metadata.sharedLayerCount = 0 ∧
    ((exportFromRegistry demoHash 0 emptyCache "app:2.0" "app:1.0" "linux/amd64" true
        ["sha256:a1"] [layerA, layerB] ["tgz", "tgz"] ["sha256:a1", "sha256:b1"]
        [9]).metadata.layers.map (fun l => l.diffID)) = ["sha256:b1"] ∧
    (exportFromRegistry demoHash 0 emptyCache "app:2.0" "app:1.0" "linux/amd64" true
        ["sha256:a1"] [layerA, layerB] ["tgz", "tgz"] ["sha256:a1", "sha256:b1"]
        [9]).metadata.configDiffIDs = ["sha256:a1", "sha256:b1"] ∧
    ¬((exportFromRegistry demoHash 0 emptyCache "app:2.0" "app:1.0" "linux/amd64" true
        ["sha256:a1"] [layerA, layerB] ["tgz", "tgz"] ["sha256:a1", "sha256:b1"]
        [9]).metadata.sharedLayerCount +
      (exportFromRegistry demoHash 0 emptyCache "app:2.0" "app:1.0" "linux/amd64" true
        ["sha256:a1"] [layerA, layerB] ["tgz", "tgz"] ["sha256:a1", "sha256:b1"]
        [9]).metadata.layers.length =
      (exportFromRegistry demoHash 0 emptyCache "app:2.0" "app:1.0" "linux/amd64" true
        ["sha256:a1"] [layerA, layerB] ["tgz", "tgz"] ["sha256:a1", "sha256:b1"]
        [9]).metadata.configDiffIDs.length) ∧
    (∃ p, (exportFromRegistry demoHash 0 emptyCache "app:2.0" "app:1.0" "linux/amd64" true
        ["sha256:a1"] [layerA, layerB] ["tgz", "tgz"] ["sha256:a1", "sha256:b1"]
        [9]).pack = some p ∧ p.error = none) := by
  refine ⟨rfl, rfl, rfl, by decide, ⟨_, rfl, rfl⟩⟩

/-- C2, evaluated at the failing input: an incremental save where every
layer is shared.  The fallback resets the export list to all layers but
leaves `layerInfos` empty, so the successfully packed bundle contains one
`blobs/sha256/aa` entry while `metadata.layers` is empty — the blob sequence
does not match the metadata layer list. -/
theorem exportFromRegistry_fallback_blob_mismatch :
    (exportFromRegistry demoHash 0 emptyCache "app:2.0" "app:1.0" "linux/amd64" true
        ["sha256:a1"] [layerA] ["tgz"] ["sha256:a1"] [9]).metadata.layers = [] ∧
    (exportFromRegistry demoHash 0 emptyCache "app:2.0" "app:1.0" "linux/amd64" true
        ["sha256:a1"] [layerA] ["tgz"] ["sha256:a1"] [9]).pack =
      some ⟨true, [("metadata.json", [9]), ("blobs/sha256/aa", [1])], none⟩ ∧
    ¬(((exportFromRegistry demoHash 0 emptyCache "app:2.0" "app:1.0" "linux/amd64" true
        ["sha256:a1"] [layerA] ["tgz"] ["sha256:a1"] [9]).pack.map
          (fun p => p.entries.length)) =
      some (1 + (exportFromRegistry demoHash 0 emptyCache "app:2.0" "app:1.0" "linux/amd64" true
        ["sha256:a1"] [layerA] ["tgz"] ["sha256:a1"] [9]).metadata.layers.length)) := by
  refine ⟨rfl, by decide, by decide⟩

/-- C5, counterexample: packing a bundle whose single blob cannot be read
back from the (empty) cache fails — and the output file created by
`os.Create` is still present at the output path, refuting "failure leaves no
observable output file". -/
theorem createBundleTarGz_failure_leaves_file :
    (createBundleTarGz emptyCache [9]
        [⟨"sha256:aa", "sha256:a1", 3, false, none⟩]).error.isSome = true ∧
    (createBundleTarGz emptyCache [9]
        [⟨"sha256:aa", "sha256:a1", 3, false, none⟩]).fileAtOutputPath = true := by
  decide

theorem packLoop_error_iff (st : BlobCacheState) (rs : List DownloadResult) :
    (packLoop st rs).2.isSome = true ↔ ∃ r ∈ rs, cacheRead st r.digest = none := by
  induction rs with
  | nil => simp [packLoop]
  | cons r rest ih =>
    cases hc : cacheRead st r.digest with
    | none => simp [packLoop, hc]
    | some content => simp [packLoop, hc, ih]

/-- C5, amended: `createBundleTarGz` writes the bundle in place — the file
is created directly at the output path and is never renamed or removed, so
it is present after the call whether packing succeeded or failed; the call
fails exactly when some download result's blob cannot be read back from the
cache. -/
theorem createBundleTarGz_writes_in_place (st : BlobCacheState) (metaBytes : Bytes)
    (results : List DownloadResult) :
    (createBundleTarGz st metaBytes results).fileAtOutputPath = true ∧
    ((createBundleTarGz st metaBytes results).error.isSome = true ↔
      ∃ r ∈ results, cacheRead st r.digest = none) :=
  ⟨rfl, packLoop_error_iff st results⟩

theorem downloadBlobs_disabled (hash : Bytes → String) (now : Nat) (st : BlobCacheState)
    (layers : List SrcLayer) (imageRef : String) (hdis : st.enabled = false) :
    downloadBlobs hash now st layers imageRef
      = (st, layers.map (fun l => ⟨l.digest, l.diffID, l.size, false, none⟩)) := by
  induction layers with
  | nil => rfl
  | cons l rest ih =>
    simp [downloadBlobs, downloadSingleBlob, downloadFresh, cacheExists, cachePut, hdis, ih]

theorem selectLayersToExport_ne_nil (incremental : Bool) (baseDiffIDs mediaTypes : List String)
    (newLayers : List SrcLayer) (h : newLayers ≠ []) :
    (selectLayersToExport incremental baseDiffIDs mediaTypes newLayers).1 ≠ [] := by
  simp only [selectLayersToExport]
  by_cases he : (if incremental then filterLayers baseDiffIDs mediaTypes 0 newLayers
      else (newLayers, allLayerInfos mediaTypes 0 newLayers)).1.isEmpty = true
  · simp [he, h]
  · simp only [he, Bool.false_eq_true, if_false]
    simp only [List.isEmpty_iff] at he
    simpa [Bool.not_eq_true] using he

/-- C10: with the blob cache constructed disabled, every download result
reports success (`Put` is a silent no-op and nothing is stored), yet any
export that must pack at least one layer fails at the packing step because
reading the blob back from the disabled cache always errors. -/
theorem exportFromRegistry_disabled_cache
    (hash : Bytes → String) (now : Nat) (st : BlobCacheState)
    (newRef fullSinceRef platform : String) (incremental : Bool)
    (baseDiffIDs : List String) (newLayers : List SrcLayer)
    (mediaTypes configDiffIDs : List String) (metaBytes : Bytes)
    (hdis : st.enabled = false) (hne : newLayers ≠ []) :
    (∀ r ∈ (exportFromRegistry hash now st newRef fullSinceRef platform incremental
        baseDiffIDs newLayers mediaTypes configDiffIDs metaBytes).results, r.error = none) ∧
    (∃ p, (exportFromRegistry hash now st newRef fullSinceRef platform incremental
        baseDiffIDs newLayers mediaTypes configDiffIDs metaBytes).pack = some p ∧
      p.error.isSome = true) := by
  have hsel := selectLayersToExport_ne_nil incremental baseDiffIDs mediaTypes newLayers hne
  have hdl := downloadBlobs_disabled hash now st
    (selectLayersToExport incremental baseDiffIDs mediaTypes newLayers).1 newRef hdis
  obtain ⟨l0, ls, hcons⟩ : ∃ l0 ls,
      (selectLayersToExport incremental baseDiffIDs mediaTypes newLayers).1 = l0 :: ls := by
    cases hx : (selectLayersToExport incremental baseDiffIDs mediaTypes newLayers).1 with
    | nil => exact absurd hx hsel
    | cons a b => exact ⟨a, b, rfl⟩
  constructor
  · intro r hr
    simp only [exportFromRegistry, hdl] at hr
    simp only [List.mem_map] at hr
    obtain ⟨l, _, rfl⟩ := hr
    rfl
  · refine ⟨createBundleTarGz st metaBytes
      ((selectLayersToExport incremental baseDiffIDs mediaTypes newLayers).1.map
        (fun l => ⟨l.digest, l.diffID, l.size, false, none⟩)), ?_, ?_⟩
    · simp [exportFromRegistry, hdl]
    · show (packLoop st
          ((selectLayersToExport incremental baseDiffIDs mediaTypes newLayers).1.map
            (fun l => ⟨l.digest, l.diffID, l.size, false, none⟩))).2.isSome = true
      rw [packLoop_error_iff st _]
      refine ⟨⟨l0.digest, l0.diffID, l0.size, false, none⟩, ?_, by simp [cacheRead, hdis]⟩
      rw [hcons]
      simp

/-- Concrete instantiation of `exportFromRegistry_disabled_cache` on a
one-layer full export with a disabled cache. -/
theorem exportFromRegistry_disabled_cache_check :
    ((⟨false, [], [], 0⟩ : BlobCacheState).enabled = false ∧ ([layerA] : List SrcLayer) ≠ []) ∧
    ((∀ r ∈ (exportFromRegistry demoHash 0 ⟨false, [], [], 0⟩ "app:2.0" "" "linux/amd64" false
        [] [layerA] ["tgz"] ["sha256:a1"] [9]).results, r.error = none) ∧
     (∃ p, (exportFromRegistry demoHash 0 ⟨false, [], [], 0⟩ "app:2.0" "" "linux/amd64" false
        [] [layerA] ["tgz"] ["sha256:a1"] [9]).pack = some p ∧
       p.error.isSome = true)) :=
  ⟨⟨rfl, by decide⟩,
   exportFromRegistry_disabled_cache demoHash 0 ⟨false, [], [], 0⟩ "app:2.0" "" "linux/amd64"
     false [] [layerA] ["tgz"] ["sha256:a1"] [9] rfl (by decide)⟩

/-! ## Bundle loader (`LoadBundle` / `rebuildImageTar` / `decompressAndVerify`) -/

/-- `bundle.Metadata` as consumed by the loader (the config is represented
by its rootfs diffID chain; `none` models a nil `Config` pointer). -/
structure BundleMeta where
  version : String
  imageRef : String
  baseRef : String
  sharedLayerCount : Nat
  configDiffIDs : Option (List String)
  layers : List LayerInfo
deriving DecidableEq

/-- The fatal errors of the v2 load path, in source order. -/
inductive LoadError
  | unsupportedVersion (v : String)
  | missingBlob (digest : String)
  | baseUnavailable
  | configNil
  | diffIDsEmpty
  | baseMismatch (got need : Nat)
  | gzipError (index : Nat)
  | diffIDMismatch (index : Nat) (expected found : String)
  | noLayers
deriving DecidableEq

/-- `decompressAndVerify`: gunzip the blob while hashing the uncompressed
stream; returns the uncompressed bytes and the calculated diffID (the
comparison against the declared diffID is done by the caller, as in the
source). -/
def decompressAndVerify (gunzip : Bytes → Option Bytes) (hash : Bytes → String)
    (blob : Bytes) : Option (Bytes × String) :=
  match gunzip blob with
  | none => none
  | some unc => some (unc, "sha256:" ++ hash unc)

/-- The new-layer loop of `rebuildImageTar`: for each bundled layer, open
the extracted blob, decompress and hash it, fail on a diffID mismatch, and
otherwise emit the `<first12(diffID)>/layer.tar` entry. -/
def processLayers (gunzip : Bytes → Option Bytes) (hash : Bytes → String)
    (blobDir : List (String × Bytes)) :
    Nat → List LayerInfo → Except LoadError (List (String × Bytes))
  | _, [] => .ok []
  | i, l :: rest =>
    match findEntry (trimSha256 l.digest) blobDir with
    | none => .error (.missingBlob l.digest)
    | some blob =>
      match decompressAndVerify gunzip hash blob with
      | none => .error (.gzipError i)
      | some r =>
        if r.2 ≠ l.diffID then .error (.diffIDMismatch i l.diffID r.2)
        else
          match processLayers gunzip hash blobDir (i + 1) rest with
          | .error e => .error e
          | .ok es => .ok ((strTake (trimSha256 l.diffID) 12 ++ "/layer.tar", r.1) :: es)

/-- The shared-layer step of `rebuildImageTar`: only when a base image was
extracted and `sharedLayerCount > 0`, require enough base layers and copy
the first `sharedLayerCount` of them verbatim. -/
def sharedLayersStep (meta : BundleMeta) (base : Option (List (String × Bytes))) :
    Except LoadError (List (String × Bytes)) :=
  match base with
  | some baseLayers =>
    if meta.sharedLayerCount > baseLayers.length then
      .error (.baseMismatch baseLayers.length meta.sharedLayerCount)
    else .ok (baseLayers.take meta.sharedLayerCount)
  | none => .ok []

/-- `rebuildImageTar`: validate the config, splice the shared base layers
(incremental only), write the config entry, decompress-and-verify each
bundled layer, then the manifest and repositories entries.  The JSON bodies
of config/manifest/repositories are not inspected by any claim and are
represented as empty byte lists. -/
def rebuildImageTar (gunzip : Bytes → Option Bytes) (hash : Bytes → String)
    (meta : BundleMeta) (blobDir : List (String × Bytes))
    (base : Option (List (String × Bytes))) : Except LoadError (List (String × Bytes)) :=
  match meta.configDiffIDs with
  | none => .error .configNil
  | some ds =>
    if ds.isEmpty then .error .diffIDsEmpty
    else
      match sharedLayersStep meta base with
      | .error e => .error e
      | .ok sharedEntries =>
        let configName := strTake (trimSha256 (ds.getD 0 "")) 12 ++ ".json"
        match processLayers gunzip hash blobDir 0 meta.layers with
        | .error e => .error e
        | .ok newEntries =>
          if (sharedEntries.map (fun e => e.1) ++ newEntries.map (fun e => e.1)).isEmpty then
            .error .noLayers
          else
            .ok (sharedEntries ++ [(configName, [])] ++ newEntries ++
              [("manifest.json", []), ("repositories", [])])

/-- The blob-presence validation of `LoadBundle`: the first metadata layer
whose blob is absent from the scratch directory, if any. -/
def firstMissingBlob (blobDir : List (String × Bytes)) : List LayerInfo → Option String
  | [] => none
  | l :: rest =>
    if (findEntry (trimSha256 l.digest) blobDir).isSome then firstMissingBlob blobDir rest
    else some l.digest

/-- The v2 path of `LoadBundle` after the archive has been extracted:
version check, blob-presence validation, base-image acquisition for
incremental bundles (`base = none` models a runtime that cannot supply the
base), reconstruction, and — only on success — the runtime `load` handoff.
The Bool records whether the runtime's load was invoked. -/
def loadBundleV2 (gunzip : Bytes → Option Bytes) (hash : Bytes → String)
    (meta : BundleMeta) (blobDir : List (String × Bytes))
    (base : Option (List (String × Bytes))) : Except LoadError Unit × Bool :=
  if meta.version ≠ "2" then (.error (.unsupportedVersion meta.version), false)
  else
    match firstMissingBlob blobDir meta.layers with
    | some d => (.error (.missingBlob d), false)
    | none =>
      if meta.baseRef ≠ "" then
        match base with
        | none => (.error .baseUnavailable, false)
        | some bl =>
          match rebuildImageTar gunzip hash meta blobDir (some bl) with
          | .error e => (.error e, false)
          | .ok _ => (.ok (), true)
      else
        match rebuildImageTar gunzip hash meta blobDir none with
        | .error e => (.error e, false)
        | .ok _ => (.ok (), true)

/-- A bundled layer whose blob is present and decompresses. -/
def layerUnzips (gunzip : Bytes → Option Bytes) (blobDir : List (String × Bytes))
    (l : LayerInfo) : Bool :=
  ((findEntry (trimSha256 l.digest) blobDir).bind gunzip).isSome

/-- A bundled layer whose decompressed stream hashes to its declared
diffID. -/
def layerDiffIDOk (gunzip : Bytes → Option Bytes) (hash : Bytes → String)
    (blobDir : List (String × Bytes)) (l : LayerInfo) : Bool :=
  match (findEntry (trimSha256 l.digest) blobDir).bind gunzip with
  | some unc => ("sha256:" ++ hash unc) == l.diffID
  | none => false

theorem firstMissingBlob_none (blobDir : List (String × Bytes)) (ls : List LayerInfo)
    (h : ∀ l ∈ ls, (findEntry (trimSha256 l.digest) blobDir).isSome = true) :
    firstMissingBlob blobDir ls = none := by
  induction ls with
  | nil => rfl
  | cons l rest ih =>
    simp [firstMissingBlob, h l (List.mem_cons_self l rest),
      ih (fun x hx => h x (List.mem_cons_of_mem l hx))]

theorem processLayers_ok (gunzip : Bytes → Option Bytes) (hash : Bytes → String)
    (blobDir : List (String × Bytes)) (i : Nat) (ls : List LayerInfo)
    (h : ∀ l ∈ ls, layerDiffIDOk gunzip hash blobDir l = true) :
    ∃ es, processLayers gunzip hash blobDir i ls = .ok es ∧ es.length = ls.length := by
  induction ls generalizing i with
  | nil => exact ⟨[], rfl, rfl⟩
  | cons l rest ih =>
    have hl := h l (List.mem_cons_self l rest)
    obtain ⟨es, hes, hlen⟩ := ih (i + 1) (fun x hx => h x (List.mem_cons_of_mem l hx))
    cases hfind : findEntry (trimSha256 l.digest) blobDir with
    | none => simp [layerDiffIDOk, hfind] at hl
    | some blob =>
      cases hgz : gunzip blob with
      | none => simp [layerDiffIDOk, hfind, hgz] at hl
      | some unc =>
        have heq : ("sha256:" ++ hash unc) = l.diffID := by
          simpa [layerDiffIDOk, hfind, hgz] using hl
        refine ⟨(strTake (trimSha256 l.diffID) 12 ++ "/layer.tar", unc) :: es, ?_, by simp [hlen]⟩
        simp [processLayers, hfind, decompressAndVerify, hgz, heq, hes]

theorem processLayers_mismatch (gunzip : Bytes → Option Bytes) (hash : Bytes → String)
    (blobDir : List (String × Bytes)) (i : Nat) (ls : List LayerInfo)
    (hdec : ∀ l ∈ ls, layerUnzips gunzip blobDir l = true)
    (hbad : ∃ l ∈ ls, layerDiffIDOk gunzip hash blobDir l = false) :
    ∃ j e f, processLayers gunzip hash blobDir i ls = .error (.diffIDMismatch j e f) := by
  induction ls generalizing i with
  | nil => simp at hbad
  | cons l rest ih =>
    have hl := hdec l (List.mem_cons_self l rest)
    cases hfind : findEntry (trimSha256 l.digest) blobDir with
    | none => simp [layerUnzips, hfind] at hl
    | some blob =>
      cases hgz : gunzip blob with
      | none => simp [layerUnzips, hfind, hgz] at hl
      | some unc =>
        by_cases hok : ("sha256:" ++ hash unc) = l.diffID
        · have hbadr : ∃ x ∈ rest, layerDiffIDOk gunzip hash blobDir x = false := by
            rcases hbad with ⟨x, hx, hxf⟩
            rcases List.mem_cons.mp hx with rfl | hxr
            · exfalso
              simp [layerDiffIDOk, hfind, hgz, hok] at hxf
            · exact ⟨x, hxr, hxf⟩
          obtain ⟨j, e, f, hje⟩ :=
            ih (i + 1) (fun x hx => hdec x (List.mem_cons_of_mem l hx)) hbadr
          refine ⟨j, e, f, ?_⟩
          simp [processLayers, hfind, decompressAndVerify, hgz, hok, hje]
        · refine ⟨i, l.diffID, "sha256:" ++ hash unc, ?_⟩
          simp [processLayers, hfind, decompressAndVerify, hgz, hok]

/-- C4: loading a v2 bundle whose blobs are all present and decompressable,
with an available and large-enough base image when the bundle is
incremental: if some layer's decompressed stream does not hash to its
declared diffID, the load fails with a DiffID-mismatch error and the
runtime's load is never invoked; if every layer matches, reconstruction
succeeds and the runtime load is invoked. -/
theorem loadBundleV2_diffID_verification
    (gunzip : Bytes → Option Bytes) (hash : Bytes → String)
    (meta : BundleMeta) (blobDir : List (String × Bytes))
    (base : Option (List (String × Bytes)))
    (hver : meta.version = "2")
    (hconf : ∃ ds, meta.configDiffIDs = some ds ∧ ds ≠ [])
    (hdec : ∀ l ∈ meta.layers, layerUnzips gunzip blobDir l = true)
    (hbase : meta.baseRef ≠ "" → base.isSome = true)
    (hshared : ∀ bl, base = some bl → meta.sharedLayerCount ≤ bl.length)
    (hne : meta.layers ≠ []) :
    ((∃ l ∈ meta.layers, layerDiffIDOk gunzip hash blobDir l = false) →
      (∃ j e f, (loadBundleV2 gunzip hash meta blobDir base).1
          = .error (.diffIDMismatch j e f)) ∧
      (loadBundleV2 gunzip hash meta blobDir base).2 = false) ∧
    ((∀ l ∈ meta.layers, layerDiffIDOk gunzip hash blobDir l = true) →
      (loadBundleV2 gunzip hash meta blobDir base).1 = .ok () ∧
      (loadBundleV2 gunzip hash meta blobDir base).2 = true) := by
  obtain ⟨ds, hds, hdsne⟩ := hconf
  have hpres : ∀ l ∈ meta.layers, (findEntry (trimSha256 l.digest) blobDir).isSome = true := by
    intro l hl
    have hu := hdec l hl
    cases hfind : findEntry (trimSha256 l.digest) blobDir with
    | none => simp [layerUnzips, hfind] at hu
    | some b => rfl
  have hmiss := firstMissingBlob_none blobDir meta.layers hpres
  constructor
  · intro hbad
    obtain ⟨j, e, f, hproc⟩ :=
      processLayers_mismatch gunzip hash blobDir 0 meta.layers hdec hbad
    have hreb : ∀ b, (∀ bl, b = some bl → meta.sharedLayerCount ≤ bl.length) →
        rebuildImageTar gunzip hash meta blobDir b = .error (.diffIDMismatch j e f) := by
      intro b hb
      cases b with
      | none => simp [rebuildImageTar, hds, hdsne, sharedLayersStep, hproc]
      | some bl =>
        have hngt : ¬meta.sharedLayerCount > bl.length := not_lt.mpr (hb bl rfl)
        simp [rebuildImageTar, hds, hdsne, sharedLayersStep, hngt, hproc]
    by_cases hbr : meta.baseRef = ""
    · simp [loadBundleV2, hver, hmiss, hbr,
        hreb none (fun bl h => Option.noConfusion h)]
    · obtain ⟨bl, hblv⟩ := Option.isSome_iff_exists.mp (hbase hbr)
      simp [loadBundleV2, hver, hmiss, hbr, hblv,
        hreb (some bl) (fun bl' h => hshared bl' (hblv.trans h))]
  · intro hall
    obtain ⟨es, hproc, hlen⟩ := processLayers_ok gunzip hash blobDir 0 meta.layers hall
    have hesne : es ≠ [] := by
      intro hnil
      subst hnil
      exact hne (List.length_eq_zero.mp hlen.symm)
    have hreb : ∀ b, (∀ bl, b = some bl → meta.sharedLayerCount ≤ bl.length) →
        ∃ out, rebuildImageTar gunzip hash meta blobDir b = .ok out := by
      intro b hb
      cases b with
      | none =>
        cases hr : rebuildImageTar gunzip hash meta blobDir none with
        | ok out => exact ⟨out, rfl⟩
        | error e =>
          simp [rebuildImageTar, hds, hdsne, sharedLayersStep, hproc, hesne] at hr
      | some bl =>
        have hngt : ¬meta.sharedLayerCount > bl.length := not_lt.mpr (hb bl rfl)
        cases hr : rebuildImageTar gunzip hash meta blobDir (some bl) with
        | ok out => exact ⟨out, rfl⟩
        | error e =>
          simp [rebuildImageTar, hds, hdsne, sharedLayersStep, hngt, hproc, hesne] at hr
    by_cases hbr : meta.baseRef = ""
    · obtain ⟨out, hout⟩ := hreb none (fun bl h => Option.noConfusion h)
      simp [loadBundleV2, hver, hmiss, hbr, hout]
    · obtain ⟨bl, hblv⟩ := Option.isSome_iff_exists.mp (hbase hbr)
      obtain ⟨out, hout⟩ := hreb (some bl) (fun bl' h => hshared bl' (hblv.trans h))
      simp [loadBundleV2, hver, hmiss, hbr, hblv, hout]

/-- Concrete instantiation of `loadBundleV2_diffID_verification`: a
one-layer full bundle whose blob decompresses and matches its diffID. -/
theorem loadBundleV2_diffID_verification_check :
    ((⟨"2", "app:2.0", "", 0, some ["sha256:a1"],
        [⟨"sha256:aa", "sha256:a1", 3, "tgz"⟩]⟩ : BundleMeta).version = "2" ∧
     (∃ ds, (⟨"2", "app:2.0", "", 0, some ["sha256:a1"],
        [⟨"sha256:aa", "sha256:a1", 3, "tgz"⟩]⟩ : BundleMeta).configDiffIDs = some ds ∧
        ds ≠ []) ∧
     (∀ l ∈ (⟨"2", "app:2.0", "", 0, some ["sha256:a1"],
        [⟨"sha256:aa", "sha256:a1", 3, "tgz"⟩]⟩ : BundleMeta).layers,
        layerUnzips (fun b => if b = [5] then some [6] else none) [("aa", [5])] l = true)) ∧
    ((∀ l ∈ (⟨"2", "app:2.0", "", 0, some ["sha256:a1"],
        [⟨"sha256:aa", "sha256:a1", 3, "tgz"⟩]⟩ : BundleMeta).layers,
        layerDiffIDOk (fun b => if b = [5] then some [6] else none)
          (fun b => if b = [6] then "a1" else "zz") [("aa", [5])] l = true) →
      (loadBundleV2 (fun b => if b = [5] then some [6] else none)
          (fun b => if b = [6] then "a1" else "zz")
          ⟨"2", "app:2.0", "", 0, some ["sha256:a1"],
            [⟨"sha256:aa", "sha256:a1", 3, "tgz"⟩]⟩ [("aa", [5])] none).1 = .ok () ∧
      (loadBundleV2 (fun b => if b = [5] then some [6] else none)
          (fun b => if b = [6] then "a1" else "zz")
          ⟨"2", "app:2.0", "", 0, some ["sha256:a1"],
            [⟨"sha256:aa", "sha256:a1", 3, "tgz"⟩]⟩ [("aa", [5])] none).2 = true) :=
  ⟨⟨rfl, ⟨["sha256:a1"], rfl, by decide⟩, by decide⟩,
   (loadBundleV2_diffID_verification (fun b => if b = [5] then some [6] else none)
      (fun b => if b = [6] then "a1" else "zz")
      ⟨"2", "app:2.0", "", 0, some ["sha256:a1"], [⟨"sha256:aa", "sha256:a1", 3, "tgz"⟩]⟩
      [("aa", [5])] none rfl ⟨["sha256:a1"], rfl, by decide⟩ (by decide)
      (fun h => absurd rfl h) (fun bl h => Option.noConfusion h) (by decide)).2⟩

end Imgcd
